import Mathlib

/-!
Verification of the LLM-OS web-search aggregation layer.

This file gives a shallow embedding of the search aggregation subsystem
(`src/js/WebSearchAPI.js`, `src/js/WebSearchManager.js`, the
`BaseSearchProvider` class and its three provider subclasses) and proves
properties of the cache, the fixed-window rate limiter, provider
selection, validation, result merging and the AI-search orchestration.

Modelling conventions:
- JavaScript numbers used as times, counters and sizes are `Nat`
  (all relevant quantities are non-negative; `Date.now() - timestamp > ttl`
  agrees with truncated subtraction for every `ttl : Nat`, since a negative
  JS difference and a truncated-to-zero Nat difference both fail `> ttl`).
- Relevance scores are `Rat`.
- A JS `Map` is an insertion-ordered association list; `set` updates the
  value in place when the key is present and appends otherwise, matching
  the JS iteration-order semantics that the eviction code relies on.
- `btoa(JSON.stringify {query, options})` is injective on the pair
  `(normalized query, serialized options)`, so the cache key is modelled
  as that pair directly; options objects are modelled by their
  serialization (a `String`).
- Thrown JS exceptions are `Except` errors; the number of external
  network calls performed is returned explicitly so that "no network call
  was attempted" is a provable statement.
-/

/-- Metadata attached to a normalized search result
(`BaseSearchProvider.normalizeResults`). -/
structure ResultMetadata where
  source : String
  timestamp : Nat
  relevance : Option Rat
  language : String
deriving DecidableEq, Repr

/-- A normalized search result as produced by
`BaseSearchProvider.normalizeResults`. -/
structure SearchResult where
  id : String
  title : String
  url : String
  snippet : String
  content : String
  metadata : ResultMetadata
  provider : String
  cached : Bool
deriving DecidableEq, Repr

/-- A raw provider-specific result before normalization; absent JS fields
are `none`. -/
structure RawResult where
  title : Option String
  name : Option String
  url : Option String
  link : Option String
  snippet : Option String
  description : Option String
  content : Option String
  relevance : Option Rat
  language : Option String
deriving DecidableEq, Repr

/-- JS `a || b` on possibly-absent strings: an absent or empty (falsy)
first operand selects the second. -/
def jsStrOr (a b : Option String) : Option String :=
  match a with
  | none => b
  | some "" => b
  | some s => some s

/-- JS `x || d` for a possibly-absent number with default `d`
(`0` is falsy and also selects the default). -/
def jsRatOr (a : Option Rat) (d : Rat) : Rat :=
  match a with
  | none => d
  | some q => if q = 0 then d else q

/-- JS `x || d` for a `Nat`-valued configuration field (`0` is falsy). -/
def jsNatOr (a : Nat) (d : Nat) : Nat :=
  if a = 0 then d else a

/-- JS `String.prototype.toLowerCase`, modelled on the character list
(structurally recursive so concrete inputs evaluate in the kernel;
agrees with the source on the queries involved). -/
def strLower (s : String) : String :=
  ⟨s.data.map Char.toLower⟩

/-- JS `String.prototype.trim`: strip leading and trailing whitespace
(same character-list modelling note as `strLower`). -/
def strTrim (s : String) : String :=
  ⟨((s.data.dropWhile Char.isWhitespace).reverse.dropWhile
      Char.isWhitespace).reverse⟩

/-! ## JS `Map` model: insertion-ordered association list -/

/-- JS `Map.get` (first — and, under the `Map` invariant, only — binding
of the key). -/
def jsMapGet {κ α : Type} [DecidableEq κ] : List (κ × α) → κ → Option α
  | [], _ => none
  | p :: m, k => if p.1 = k then some p.2 else jsMapGet m k

/-- JS `Map.set`: update in place when the key is present (keeping
insertion order), append otherwise. -/
def jsMapSet {κ α : Type} [DecidableEq κ] (m : List (κ × α)) (k : κ) (v : α) :
    List (κ × α) :=
  if (jsMapGet m k).isSome then
    m.map (fun p => if p.1 = k then (k, v) else p)
  else
    m ++ [(k, v)]

/-- JS `Map.delete`. -/
def jsMapDelete {κ α : Type} [DecidableEq κ] : List (κ × α) → κ → List (κ × α)
  | [], _ => []
  | p :: m, k => if p.1 = k then m else p :: jsMapDelete m k

/-- The JS `Map` invariant: each key is bound at most once. -/
def NodupKeys {κ α : Type} (m : List (κ × α)) : Prop :=
  (m.map Prod.fst).Nodup

/-! ## Fixed-window rate limiter (`BaseSearchProvider.createRateLimiter`) -/

/-- Configuration for a provider rate limit (`config.rateLimit`). -/
structure RateLimitConfig where
  requests : Nat
  window : Nat
deriving DecidableEq, Repr

/-- State of the object literal returned by
`BaseSearchProvider.createRateLimiter`. -/
structure RateLimiter where
  requests : Nat
  window : Nat
  currentRequests : Nat
  resetTime : Nat
deriving DecidableEq, Repr

/-- The limiter's `checkLimit()` method, with `Date.now()` passed in
explicitly: lazily reset the window when `now > resetTime`, refuse when
the counter has reached the quota, otherwise increment and admit. -/
def RateLimiter.checkLimit (rl : RateLimiter) (now : Nat) : Bool × RateLimiter :=
  let rl' :=
    if now > rl.resetTime then
      { rl with currentRequests := 0, resetTime := now + rl.window }
    else rl
  if rl'.currentRequests ≥ rl'.requests then
    (false, rl')
  else
    (true, { rl' with currentRequests := rl'.currentRequests + 1 })

/-- The limiter's `reset()` method. -/
def RateLimiter.reset (rl : RateLimiter) (now : Nat) : RateLimiter :=
  { rl with currentRequests := 0, resetTime := now + rl.window }

/-- `BaseSearchProvider.createRateLimiter`: absent configuration means no
limiter; `requests`/`window` default to 100 / 60000 via JS `||`. -/
def createRateLimiter (now : Nat) : Option RateLimitConfig → Option RateLimiter
  | none => none
  | some cfg =>
    some { requests := jsNatOr cfg.requests 100,
           window := jsNatOr cfg.window 60000,
           currentRequests := 0,
           resetTime := now + jsNatOr cfg.window 60000 }

/-- Run a sequence of `checkLimit()` calls at the given times, returning
the list of admission results and the final limiter state. -/
def RateLimiter.checkLimitSeq (rl : RateLimiter) : List Nat → List Bool × RateLimiter
  | [] => ([], rl)
  | t :: ts =>
    let r := rl.checkLimit t
    let rest := r.2.checkLimitSeq ts
    (r.1 :: rest.1, rest.2)

/-! ## Rate limiter lemmas -/

theorem checkLimit_no_reset (rl : RateLimiter) (now : Nat) (h : now ≤ rl.resetTime)
    (hq : rl.currentRequests < rl.requests) :
    rl.checkLimit now = (true, { rl with currentRequests := rl.currentRequests + 1 }) := by
  simp [RateLimiter.checkLimit, Nat.not_lt.mpr h, Nat.not_le.mpr hq]

theorem checkLimit_refuse (rl : RateLimiter) (now : Nat) (h : now ≤ rl.resetTime)
    (hq : rl.requests ≤ rl.currentRequests) :
    rl.checkLimit now = (false, rl) := by
  simp [RateLimiter.checkLimit, Nat.not_lt.mpr h, hq]

theorem checkLimit_reset (rl : RateLimiter) (now : Nat) (h : rl.resetTime < now)
    (hq : 1 ≤ rl.requests) :
    rl.checkLimit now =
      (true, { rl with currentRequests := 1, resetTime := now + rl.window }) := by
  have h0 : ¬ (0 ≥ rl.requests) := by omega
  simp [RateLimiter.checkLimit, h, h0]

/-- Admitting a run of calls inside the current window: if the counter has
room for all of them, every call is admitted and the counter advances by
the length of the run. -/
theorem checkLimitSeq_all_admitted (rl : RateLimiter) (ts : List Nat)
    (hwin : ∀ t ∈ ts, t ≤ rl.resetTime)
    (hroom : rl.currentRequests + ts.length ≤ rl.requests) :
    rl.checkLimitSeq ts =
      (List.replicate ts.length true,
       { rl with currentRequests := rl.currentRequests + ts.length }) := by
  induction ts generalizing rl with
  | nil => simp [RateLimiter.checkLimitSeq]
  | cons t ts ih =>
    have ht : t ≤ rl.resetTime := hwin t (List.mem_cons_self t ts)
    have hlt : rl.currentRequests < rl.requests := by
      simp [List.length_cons] at hroom; omega
    have hstep := checkLimit_no_reset rl t ht hlt
    have hrest := ih { rl with currentRequests := rl.currentRequests + 1 }
      (by intro u hu; exact hwin u (List.mem_cons_of_mem t hu))
      (by simp [List.length_cons] at hroom ⊢; omega)
    simp [RateLimiter.checkLimitSeq, hstep, hrest, List.replicate_succ]
    omega

/-- The counter never exceeds the quota: one `checkLimit` call preserves
`currentRequests ≤ requests` (for positive quota, from any state). -/
theorem checkLimit_counter_le (rl : RateLimiter) (now : Nat)
    (h : rl.currentRequests ≤ rl.requests) :
    ((rl.checkLimit now).2).currentRequests ≤ ((rl.checkLimit now).2).requests := by
  unfold RateLimiter.checkLimit
  by_cases hr : now > rl.resetTime <;> by_cases hq : rl.currentRequests ≥ rl.requests <;>
    by_cases h0 : rl.requests = 0 <;> simp [hr, hq, h0] <;> omega

/-- Claim C3: for a limiter with quota `R ≥ 1` in a fresh window, the first
`R` calls within the window are admitted (counter ending at `R`), the
`(R+1)`-th call within the window is refused, the first call strictly
after `resetTime` is admitted with the counter reset to `1`, and one
`checkLimit` call never pushes the counter past the quota. -/
theorem rateLimiter_fixed_window_behavior :
    ∀ (rl : RateLimiter), 1 ≤ rl.requests → rl.currentRequests = 0 →
    (∀ ts : List Nat, (∀ t ∈ ts, t ≤ rl.resetTime) → ts.length = rl.requests →
      rl.checkLimitSeq ts =
        (List.replicate rl.requests true, { rl with currentRequests := rl.requests })) ∧
    (∀ ts : List Nat, ∀ textra : Nat, (∀ t ∈ ts, t ≤ rl.resetTime) →
      textra ≤ rl.resetTime → ts.length = rl.requests →
      (({ rl with currentRequests := rl.requests } : RateLimiter).checkLimit textra).1 = false) ∧
    (∀ c t, rl.resetTime < t →
      ({ rl with currentRequests := c } : RateLimiter).checkLimit t =
        (true, { rl with currentRequests := 1, resetTime := t + rl.window })) ∧
    (∀ (rl' : RateLimiter) (now : Nat), rl'.currentRequests ≤ rl'.requests →
      ((rl'.checkLimit now).2).currentRequests ≤ ((rl'.checkLimit now).2).requests) := by
  intro rl hq hzero
  refine ⟨?_, ?_, ?_, ?_⟩
  · intro ts hwin hlen
    have := checkLimitSeq_all_admitted rl ts hwin (by omega)
    rw [this, hzero, hlen]
    simp
  · intro ts textra _ hwt hlen
    have := checkLimit_refuse { rl with currentRequests := rl.requests } textra hwt (by simp)
    simp [this]
  · intro c t ht
    exact checkLimit_reset { rl with currentRequests := c } t ht hq
  · intro rl' now h
    exact checkLimit_counter_le rl' now h

/-- Witness for C3 at a concrete limiter (quota 2, window 60000). -/
theorem rateLimiter_fixed_window_behavior_witness :
    (RateLimiter.checkLimitSeq
        { requests := 2, window := 60000, currentRequests := 0, resetTime := 60000 }
        [10, 20] =
      (List.replicate 2 true,
       { requests := 2, window := 60000, currentRequests := 2, resetTime := 60000 })) ∧
    ((RateLimiter.checkLimit
        { requests := 2, window := 60000, currentRequests := 2, resetTime := 60000 } 30).1
      = false) ∧
    (RateLimiter.checkLimit
        { requests := 2, window := 60000, currentRequests := 2, resetTime := 60000 } 60001 =
      (true, { requests := 2, window := 60000, currentRequests := 1, resetTime := 120001 })) := by
  have h := rateLimiter_fixed_window_behavior
    { requests := 2, window := 60000, currentRequests := 0, resetTime := 60000 }
    (by decide) (by decide)
  refine ⟨?_, ?_, ?_⟩
  · exact h.1 [10, 20] (by decide) (by decide)
  · exact h.2.1 [10, 20] 30 (by decide) (by decide) (by decide)
  · exact h.2.2.1 2 60001 (by decide)

/-! ## Result cache (embedded in `WebSearchAPI`) -/

/-- Cache keys: the data injectively encoded by
`btoa(JSON.stringify {query: query.toLowerCase().trim(), options})`
(`WebSearchAPI.generateCacheKey`): the normalized query paired with the
serialized options. -/
abbrev CacheKey := String × String

/-- A stored cache entry (`WebSearchAPI.cacheResults` stores
`{results, timestamp}`). -/
structure CacheEntry where
  results : List SearchResult
  timestamp : Nat
deriving DecidableEq, Repr

/-- The `webSearch.cache` configuration block; `enabled` may be absent
(the `?.` chain treats absence as enabled), `ttl` and `maxSize` use JS
`||` defaults so `0` means "default". -/
structure CacheConfig where
  enabled : Option Bool
  ttl : Nat
  maxSize : Nat
deriving DecidableEq, Repr

/-- `WebSearchAPI.isCacheEnabled`: `cache?.enabled !== false`. -/
def cacheEnabled (cfg : CacheConfig) : Bool :=
  cfg.enabled ≠ some false

/-- Effective ttl: `cache?.ttl || 3600000`. -/
def cacheTtl (cfg : CacheConfig) : Nat :=
  jsNatOr cfg.ttl 3600000

/-- Effective maximum size: `cache?.maxSize || 1000`. -/
def cacheMaxSize (cfg : CacheConfig) : Nat :=
  jsNatOr cfg.maxSize 1000

/-- `WebSearchAPI.isCacheExpired`: `Date.now() - timestamp > ttl`. -/
def isCacheExpired (now timestamp ttl : Nat) : Bool :=
  now - timestamp > ttl

/-- The cache lookup step of `WebSearchAPI.search` (lines 57-65): a live
entry is returned as a hit; an expired entry is deleted (lazy expiry) and
reported as a miss. -/
def cacheGet (cache : List (CacheKey × CacheEntry)) (key : CacheKey)
    (now ttl : Nat) : Option (List SearchResult) × List (CacheKey × CacheEntry) :=
  match jsMapGet cache key with
  | none => (none, cache)
  | some e =>
    if isCacheExpired now e.timestamp ttl then
      (none, jsMapDelete cache key)
    else
      (some e.results, cache)

/-- `WebSearchAPI.cacheResults`: when the cache is full, evict the single
oldest-inserted entry (the first key in `Map` iteration order), then
insert the new entry. -/
def cacheResults (cache : List (CacheKey × CacheEntry)) (key : CacheKey)
    (results : List SearchResult) (now maxSize : Nat) :
    List (CacheKey × CacheEntry) :=
  let cache' :=
    if cache.length ≥ maxSize then
      match cache.head? with
      | some p => jsMapDelete cache p.1
      | none => cache
    else cache
  jsMapSet cache' key { results := results, timestamp := now }

/-- The value returned by `WebSearchAPI.getCacheStats`. -/
structure CacheStats where
  size : Nat
  keys : List CacheKey
deriving DecidableEq, Repr

/-- `WebSearchAPI.getCacheStats`. -/
def getCacheStats (cache : List (CacheKey × CacheEntry)) : CacheStats :=
  { size := cache.length, keys := cache.map Prod.fst }

/-! ## Association list lemmas -/

theorem jsMapDelete_length {κ α : Type} [DecidableEq κ]
    (m : List (κ × α)) (k : κ) (h : (jsMapGet m k).isSome) :
    (jsMapDelete m k).length + 1 = m.length := by
  induction m with
  | nil => simp [jsMapGet] at h
  | cons p m ih =>
    by_cases hk : p.1 = k
    · simp [jsMapDelete, hk]
    · simp [jsMapGet, hk] at h
      simp [jsMapDelete, hk, ih h]

theorem jsMapGet_eq_none_of_not_mem {κ α : Type} [DecidableEq κ]
    (m : List (κ × α)) (k : κ) (h : k ∉ m.map Prod.fst) :
    jsMapGet m k = none := by
  induction m with
  | nil => simp [jsMapGet]
  | cons p m ih =>
    simp at h
    have hk : p.1 ≠ k := fun he => h.1 he.symm
    simp [jsMapGet, hk, ih (by simpa using h.2)]

theorem jsMapGet_delete_self {κ α : Type} [DecidableEq κ]
    (m : List (κ × α)) (k : κ) (h : NodupKeys m) :
    jsMapGet (jsMapDelete m k) k = none := by
  induction m with
  | nil => simp [jsMapDelete, jsMapGet]
  | cons p m ih =>
    have hh : (p.1 :: m.map Prod.fst).Nodup := by
      simpa only [NodupKeys, List.map_cons] using h
    have h' := List.nodup_cons.mp hh
    by_cases hk : p.1 = k
    · subst hk
      simp [jsMapDelete]
      exact jsMapGet_eq_none_of_not_mem m p.1 h'.1
    · simp [jsMapDelete, hk, jsMapGet, ih h'.2]

theorem jsMapGet_append_right {κ α : Type} [DecidableEq κ]
    (m : List (κ × α)) (k : κ) (v : α) (h : jsMapGet m k = none) :
    jsMapGet (m ++ [(k, v)]) k = some v := by
  induction m with
  | nil => simp [jsMapGet]
  | cons p m ih =>
    by_cases hk : p.1 = k
    · simp [jsMapGet, hk] at h
    · simp [jsMapGet, hk] at h ⊢
      exact ih h

theorem jsMapGet_isSome_of_mem {κ α : Type} [DecidableEq κ]
    (m : List (κ × α)) (k : κ) (h : k ∈ m.map Prod.fst) :
    (jsMapGet m k).isSome := by
  induction m with
  | nil => simp at h
  | cons p m ih =>
    by_cases hk : p.1 = k
    · simp [jsMapGet, hk]
    · simp [jsMapGet, hk]
      apply ih
      simp at h
      rcases h with h | h
      · exact absurd h.symm hk
      · simpa using h

/-- Claim C4: an entry stored at `storedAt` is reported absent by a cache
lookup at any time `t` with `t - storedAt > ttl`, the lookup removes the
entry, and the cache statistics afterwards report a size smaller by one
(with the stale key no longer present). -/
theorem cache_lazy_expiry (cache : List (CacheKey × CacheEntry))
    (key : CacheKey) (rs : List SearchResult) (storedAt t ttl : Nat)
    (hnd : NodupKeys cache)
    (hstored : jsMapGet cache key = some { results := rs, timestamp := storedAt })
    (hexp : t - storedAt > ttl) :
    cacheGet cache key t ttl = (none, jsMapDelete cache key) ∧
    (getCacheStats (jsMapDelete cache key)).size + 1 = (getCacheStats cache).size ∧
    jsMapGet (jsMapDelete cache key) key = none := by
  refine ⟨?_, ?_, ?_⟩
  · simp [cacheGet, hstored, isCacheExpired, hexp]
  · simpa [getCacheStats] using jsMapDelete_length cache key (by simp [hstored])
  · exact jsMapGet_delete_self cache key hnd

/-- Witness for C4: a one-entry cache, looked up 1 ms past its ttl. -/
theorem cache_lazy_expiry_witness :
    (cacheGet [((("q", "{}") : CacheKey),
        ({ results := [], timestamp := 5 } : CacheEntry))] ("q", "{}") 3606 3600
      = (none, [])) ∧
    (getCacheStats ([] : List (CacheKey × CacheEntry))).size + 1 =
      (getCacheStats [((("q", "{}") : CacheKey),
        ({ results := [], timestamp := 5 } : CacheEntry))]).size := by
  have h := cache_lazy_expiry
    [((("q", "{}") : CacheKey), ({ results := [], timestamp := 5 } : CacheEntry))]
    ("q", "{}") [] 5 3606 3600 (by simp [NodupKeys]) (by simp [jsMapGet]) (by decide)
  refine ⟨?_, ?_⟩
  · have := h.1
    simpa [jsMapDelete] using this
  · have := h.2.1
    simpa [jsMapDelete] using this

/-! ## Cache eviction (claim C5) -/

theorem jsMapSet_append {κ α : Type} [DecidableEq κ]
    (m : List (κ × α)) (k : κ) (v : α) (h : jsMapGet m k = none) :
    jsMapSet m k v = m ++ [(k, v)] := by
  simp [jsMapSet, h]

/-- A sequence of `cacheResults` calls (key, results, timestamp each). -/
def cachePutList (maxSize : Nat) (cache : List (CacheKey × CacheEntry))
    (xs : List (CacheKey × List SearchResult × Nat)) :
    List (CacheKey × CacheEntry) :=
  xs.foldl (fun c x => cacheResults c x.1 x.2.1 x.2.2 maxSize) cache

/-- Below capacity, with pairwise-distinct fresh keys, `cacheResults` only
appends: no eviction happens and insertion order is preserved. -/
theorem cachePutList_no_evict (maxSize : Nat)
    (xs : List (CacheKey × List SearchResult × Nat)) :
    ∀ (c : List (CacheKey × CacheEntry)),
    (c.map Prod.fst ++ xs.map Prod.fst).Nodup →
    c.length + xs.length ≤ maxSize →
    cachePutList maxSize c xs =
      c ++ xs.map (fun x => (x.1, { results := x.2.1, timestamp := x.2.2 })) := by
  induction xs with
  | nil => intro c _ _; simp [cachePutList]
  | cons x xs ih =>
    intro c hnd hlen
    have hlt : ¬ (c.length ≥ maxSize) := by
      simp [List.length_cons] at hlen
      omega
    have hfresh : x.1 ∉ c.map Prod.fst := by
      have hd := (List.nodup_append.mp hnd).2.2
      intro hmem
      exact hd hmem (by simp)
    have hget : jsMapGet c x.1 = none := jsMapGet_eq_none_of_not_mem c x.1 hfresh
    have hstep : cacheResults c x.1 x.2.1 x.2.2 maxSize =
        c ++ [(x.1, { results := x.2.1, timestamp := x.2.2 })] := by
      simp [cacheResults, hlt]
      exact jsMapSet_append c x.1 _ hget
    have hnd' : ((c ++ [(x.1, ({ results := x.2.1, timestamp := x.2.2 } : CacheEntry))]).map
        Prod.fst ++ xs.map Prod.fst).Nodup := by
      simpa [List.append_assoc] using hnd
    have hlen' : (c ++ [(x.1, ({ results := x.2.1, timestamp := x.2.2 } : CacheEntry))]).length
        + xs.length ≤ maxSize := by
      simp [List.length_cons] at hlen ⊢
      omega
    calc cachePutList maxSize c (x :: xs)
        = cachePutList maxSize (cacheResults c x.1 x.2.1 x.2.2 maxSize) xs := rfl
      _ = cachePutList maxSize
            (c ++ [(x.1, { results := x.2.1, timestamp := x.2.2 })]) xs := by rw [hstep]
      _ = _ := by rw [ih _ hnd' hlen']
      _ = c ++ (x :: xs).map
            (fun x => (x.1, { results := x.2.1, timestamp := x.2.2 })) := by simp

/-- Claim C5: inserting `maxSize + 1` distinct keys into an empty cache
evicts exactly the first-inserted key: the final cache has exactly
`maxSize` entries, the first key is absent, and all later keys are
present. -/
theorem cache_insertion_order_eviction (cfg : CacheConfig)
    (xs : List (CacheKey × List SearchResult × Nat))
    (hnd : (xs.map Prod.fst).Nodup)
    (hlen : xs.length = cacheMaxSize cfg + 1) :
    (getCacheStats (cachePutList (cacheMaxSize cfg) [] xs)).size = cacheMaxSize cfg ∧
    (∀ x0 ∈ xs.head?, jsMapGet (cachePutList (cacheMaxSize cfg) [] xs) x0.1 = none) ∧
    (∀ x ∈ xs.tail, (jsMapGet (cachePutList (cacheMaxSize cfg) [] xs) x.1).isSome) := by
  have hM1 : 1 ≤ cacheMaxSize cfg := by
    unfold cacheMaxSize jsNatOr
    split <;> omega
  rcases List.eq_nil_or_concat xs with hnil | ⟨ys, z, rfl⟩
  · subst hnil; simp at hlen
  rw [List.concat_eq_append] at *
  have hyslen : ys.length = cacheMaxSize cfg := by
    simp at hlen; omega
  rcases ys with _ | ⟨y0, ys'⟩
  · simp at hyslen; omega
  -- fill the first maxSize entries without eviction
  have hndys : (([] : List (CacheKey × CacheEntry)).map Prod.fst ++
      ((y0 :: ys').map Prod.fst)).Nodup := by
    have := hnd
    simp only [List.map_append] at this
    simpa using (List.Nodup.of_append_left this)
  have hfill := cachePutList_no_evict (cacheMaxSize cfg) (y0 :: ys') [] hndys
    (by simp [hyslen])
  have hsplit : cachePutList (cacheMaxSize cfg) [] ((y0 :: ys') ++ [z]) =
      cacheResults (cachePutList (cacheMaxSize cfg) [] (y0 :: ys')) z.1 z.2.1 z.2.2
        (cacheMaxSize cfg) := by
    simp [cachePutList, List.foldl_append]
  -- names for the filled cache
  set e0 : CacheEntry := { results := y0.2.1, timestamp := y0.2.2 } with he0
  have hfull : cachePutList (cacheMaxSize cfg) [] (y0 :: ys') =
      (y0.1, e0) :: ys'.map (fun x => (x.1, { results := x.2.1, timestamp := x.2.2 })) := by
    rw [hfill]; simp
  -- key distinctness facts from hnd
  have hndkeys : (y0.1 :: (ys'.map Prod.fst ++ [z.1])).Nodup := by
    simpa using hnd
  have hy0 : y0.1 ∉ ys'.map Prod.fst ++ [z.1] := (List.nodup_cons.mp hndkeys).1
  have hndtail : (ys'.map Prod.fst ++ [z.1]).Nodup := (List.nodup_cons.mp hndkeys).2
  have hz : z.1 ∉ ys'.map Prod.fst := by
    intro hmem
    have hd := (List.nodup_append.mp hndtail).2.2
    exact hd hmem (by simp)
  -- the final insertion evicts the head
  have hevlen : ((y0.1, e0) :: ys'.map
      (fun x => (x.1, ({ results := x.2.1, timestamp := x.2.2 } : CacheEntry)))).length ≥
      cacheMaxSize cfg := by
    simp [← hyslen]
  have hzfresh : jsMapGet (ys'.map
      (fun x => (x.1, ({ results := x.2.1, timestamp := x.2.2 } : CacheEntry)))) z.1 = none := by
    apply jsMapGet_eq_none_of_not_mem
    simpa using hz
  have hfinal : cachePutList (cacheMaxSize cfg) [] ((y0 :: ys') ++ [z]) =
      ys'.map (fun x => (x.1, { results := x.2.1, timestamp := x.2.2 })) ++
        [(z.1, { results := z.2.1, timestamp := z.2.2 })] := by
    rw [hsplit, hfull]
    simp only [cacheResults, hevlen, if_pos, List.head?_cons]
    rw [show jsMapDelete ((y0.1, e0) :: ys'.map
        (fun x => (x.1, ({ results := x.2.1, timestamp := x.2.2 } : CacheEntry)))) y0.1 =
        ys'.map (fun x => (x.1, { results := x.2.1, timestamp := x.2.2 })) by
      simp [jsMapDelete]]
    exact jsMapSet_append _ _ _ hzfresh
  refine ⟨?_, ?_, ?_⟩
  · rw [hfinal]
    simp [getCacheStats]
    simp at hyslen
    omega
  · intro x0 hx0
    simp at hx0
    subst hx0
    rw [hfinal]
    apply jsMapGet_eq_none_of_not_mem
    simpa using hy0
  · intro x hx
    rw [hfinal]
    apply jsMapGet_isSome_of_mem
    have hx' : x ∈ ys' ∨ x = z := by simpa using hx
    simp only [List.map_append, List.map_map, List.map_cons, List.map_nil]
    rcases hx' with hx | rfl
    · apply List.mem_append_left
      simp only [List.mem_map, Function.comp]
      exact ⟨x, hx, rfl⟩
    · apply List.mem_append_right
      simp

/-- Witness for C5: three distinct keys into an empty cache of capacity 2:
the first key is evicted, the two later keys remain. -/
theorem cache_insertion_order_eviction_witness :
    (getCacheStats (cachePutList
        (cacheMaxSize { enabled := none, ttl := 0, maxSize := 2 }) []
        [(("a", "o"), [], 1), (("b", "o"), [], 2), (("c", "o"), [], 3)])).size = 2 ∧
    jsMapGet (cachePutList
        (cacheMaxSize { enabled := none, ttl := 0, maxSize := 2 }) []
        [(("a", "o"), [], 1), (("b", "o"), [], 2), (("c", "o"), [], 3)]) ("a", "o") = none := by
  have h := cache_insertion_order_eviction { enabled := none, ttl := 0, maxSize := 2 }
    [(("a", "o"), [], 1), (("b", "o"), [], 2), (("c", "o"), [], 3)]
    (by decide) (by decide)
  exact ⟨h.1, h.2.1 (("a", "o"), [], 1) (by simp)⟩

/-! ## Multi-provider merge (`WebSearchManager.mergeSearchResults`) -/

/-- The deduplication key built by `mergeSearchResults`:
the template string `url + ":" + title`. -/
def dedupKey (r : SearchResult) : String :=
  r.url ++ ":" ++ r.title

/-- The relevance used by the merge comparator:
`metadata.relevance || 0` (absent relevance counts as `0`). -/
def relOrZero (r : SearchResult) : Rat :=
  r.metadata.relevance.getD 0

/-- The `seen`-set loop of `mergeSearchResults`: walk the concatenated
results, keeping a result only when its key has not been seen. -/
def dedupSeen (seen : List String) : List SearchResult → List SearchResult
  | [] => []
  | r :: rs =>
    if dedupKey r ∈ seen then dedupSeen seen rs
    else r :: dedupSeen (dedupKey r :: seen) rs

/-- Stable descending insertion by `relOrZero`: an element is placed after
every element of greater or equal relevance, as the ECMAScript stable
`Array.prototype.sort` does with the comparator
`(a, b) => (b.metadata.relevance || 0) - (a.metadata.relevance || 0)`. -/
def insertDesc (x : SearchResult) : List SearchResult → List SearchResult
  | [] => [x]
  | a :: l => if relOrZero x ≤ relOrZero a then a :: insertDesc x l else x :: a :: l

/-- Stable sort in descending relevance order (the unique output of any
stable sort consistent with the comparator above). -/
def sortByRelevanceDesc (l : List SearchResult) : List SearchResult :=
  l.foldl (fun acc x => insertDesc x acc) []

/-- `WebSearchManager.mergeSearchResults`: flatten all providers' result
arrays, deduplicate by the `url:title` string key (first occurrence
wins), then sort by relevance, descending and stable. -/
def mergeSearchResults (resultsArrays : List (List SearchResult)) :
    List SearchResult :=
  sortByRelevanceDesc (dedupSeen [] resultsArrays.join)

/-- Deduplication as the spec phrases it: keep the first occurrence of
each key, dropping every later one. -/
def dedupFirstOcc : List SearchResult → List SearchResult
  | [] => []
  | r :: rs => r :: dedupFirstOcc (rs.filter (fun x => ¬ dedupKey x = dedupKey r))
termination_by l => l.length
decreasing_by
  simp only [List.length_cons]
  exact Nat.lt_succ_of_le (List.length_filter_le _ _)

/-! ## Merge lemmas -/

theorem dedupSeen_eq_filter (rs : List SearchResult) :
    ∀ seen, dedupSeen seen rs = dedupFirstOcc (rs.filter (fun x => dedupKey x ∉ seen)) := by
  induction rs with
  | nil => intro seen; simp [dedupSeen, dedupFirstOcc]
  | cons r rs ih =>
    intro seen
    by_cases hmem : dedupKey r ∈ seen
    · simp only [dedupSeen, if_pos hmem]
      rw [ih seen]
      congr 1
      simp [List.filter_cons, hmem]
    · simp only [dedupSeen, if_neg hmem]
      rw [ih (dedupKey r :: seen)]
      have hkeep : (rs.filter (fun x => dedupKey x ∉ seen)).filter
          (fun x => ¬ dedupKey x = dedupKey r) =
          rs.filter (fun x => dedupKey x ∉ dedupKey r :: seen) := by
        rw [List.filter_filter]
        congr 1
        funext x
        by_cases h1 : dedupKey x = dedupKey r <;>
          by_cases h2 : dedupKey x ∈ seen <;> simp [h1, h2]
      have hcons : (r :: rs).filter (fun x => dedupKey x ∉ seen) =
          r :: rs.filter (fun x => dedupKey x ∉ seen) := by
        simp [List.filter_cons, hmem]
      rw [hcons]
      simp only [dedupFirstOcc]
      rw [hkeep]

/-- The source's seen-set loop computes exactly "first occurrence of each
key wins". -/
theorem dedupSeen_spec (rs : List SearchResult) :
    dedupSeen [] rs = dedupFirstOcc rs := by
  rw [dedupSeen_eq_filter rs []]
  congr 1
  simp

theorem mem_insertDesc (b x : SearchResult) (l : List SearchResult) :
    b ∈ insertDesc x l ↔ b = x ∨ b ∈ l := by
  induction l with
  | nil => simp [insertDesc]
  | cons a l ih =>
    by_cases hle : relOrZero x ≤ relOrZero a
    · simp only [insertDesc, if_pos hle, List.mem_cons, ih]
      constructor
      · intro h; tauto
      · intro h; tauto
    · simp only [insertDesc, if_neg hle, List.mem_cons]

theorem insertDesc_sorted (x : SearchResult) (l : List SearchResult)
    (h : l.Pairwise (fun a b => relOrZero b ≤ relOrZero a)) :
    (insertDesc x l).Pairwise (fun a b => relOrZero b ≤ relOrZero a) := by
  induction l with
  | nil => simp [insertDesc]
  | cons a l ih =>
    rcases List.pairwise_cons.mp h with ⟨ha, hl⟩
    by_cases hle : relOrZero x ≤ relOrZero a
    · simp only [insertDesc, if_pos hle]
      rw [List.pairwise_cons]
      refine ⟨?_, ih hl⟩
      intro b hb
      rcases (mem_insertDesc b x l).mp hb with h1 | h1
      · subst h1; exact hle
      · exact ha b h1
    · simp only [insertDesc, if_neg hle]
      rw [List.pairwise_cons]
      refine ⟨?_, h⟩
      intro b hb
      rcases List.mem_cons.mp hb with h1 | h1
      · subst h1; exact le_of_not_le hle
      · exact le_trans (ha b h1) (le_of_not_le hle)

theorem sortByRelevanceDesc_sorted (l : List SearchResult) :
    (sortByRelevanceDesc l).Pairwise (fun a b => relOrZero b ≤ relOrZero a) := by
  suffices h : ∀ acc, acc.Pairwise (fun a b => relOrZero b ≤ relOrZero a) →
      (l.foldl (fun acc x => insertDesc x acc) acc).Pairwise
        (fun a b => relOrZero b ≤ relOrZero a) by
    exact h [] (by simp)
  induction l with
  | nil => intro acc hacc; simpa using hacc
  | cons x l ih =>
    intro acc hacc
    exact ih (insertDesc x acc) (insertDesc_sorted x acc hacc)

theorem filter_insertDesc_ne (x : SearchResult) (l : List SearchResult) (q : Rat)
    (hx : relOrZero x ≠ q) :
    (insertDesc x l).filter (fun e => decide (relOrZero e = q)) =
      l.filter (fun e => decide (relOrZero e = q)) := by
  induction l with
  | nil => simp [insertDesc, hx]
  | cons a l ih =>
    by_cases hle : relOrZero x ≤ relOrZero a
    · simp only [insertDesc, if_pos hle, List.filter_cons, ih]
    · simp only [insertDesc, if_neg hle, List.filter_cons]
      simp [hx]

theorem filter_insertDesc_eq (x : SearchResult) (l : List SearchResult) (q : Rat)
    (hx : relOrZero x = q)
    (hsorted : l.Pairwise (fun a b => relOrZero b ≤ relOrZero a)) :
    (insertDesc x l).filter (fun e => decide (relOrZero e = q)) =
      l.filter (fun e => decide (relOrZero e = q)) ++ [x] := by
  induction l with
  | nil => simp [insertDesc, hx]
  | cons a l ih =>
    rcases List.pairwise_cons.mp hsorted with ⟨ha, hl⟩
    by_cases hle : relOrZero x ≤ relOrZero a
    · have hins : insertDesc x (a :: l) = a :: insertDesc x l := by
        simp [insertDesc, hle]
      rw [hins, List.filter_cons, List.filter_cons]
      by_cases haq : relOrZero a = q
      · simp [haq, ih hl]
      · simp [haq, ih hl]
    · have hax : relOrZero a < relOrZero x := lt_of_not_le hle
      have hnone : (a :: l).filter (fun e => decide (relOrZero e = q)) = [] := by
        rw [List.filter_eq_nil_iff]
        intro e he
        simp only [decide_eq_true_eq]
        intro hc
        rcases List.mem_cons.mp he with h1 | h1
        · subst h1
          rw [hc, hx] at hax
          exact absurd hax (lt_irrefl q)
        · have hea : relOrZero e ≤ relOrZero a := ha e h1
          rw [hc] at hea
          rw [hx] at hax
          exact absurd (lt_of_le_of_lt hea hax) (lt_irrefl q)
      have hins : insertDesc x (a :: l) = x :: a :: l := by
        simp [insertDesc, hle]
      rw [hins, List.filter_cons, hnone]
      simp [hx]

/-- Stability of the descending sort: the subsequence of elements of any
fixed relevance is preserved untouched. -/
theorem sortByRelevanceDesc_stable (l : List SearchResult) (q : Rat) :
    (sortByRelevanceDesc l).filter (fun e => decide (relOrZero e = q)) =
      l.filter (fun e => decide (relOrZero e = q)) := by
  suffices h : ∀ acc, acc.Pairwise (fun a b => relOrZero b ≤ relOrZero a) →
      (l.foldl (fun acc x => insertDesc x acc) acc).filter
          (fun e => decide (relOrZero e = q)) =
        acc.filter (fun e => decide (relOrZero e = q)) ++
          l.filter (fun e => decide (relOrZero e = q)) by
    have := h [] (by simp)
    simpa [sortByRelevanceDesc] using this
  induction l with
  | nil => intro acc _; simp
  | cons x l ih =>
    intro acc hacc
    have hstep := ih (insertDesc x acc) (insertDesc_sorted x acc hacc)
    rw [List.foldl_cons] at *
    rw [hstep, List.filter_cons]
    by_cases hxq : relOrZero x = q
    · rw [filter_insertDesc_eq x acc q hxq hacc]
      simp [hxq]
    · rw [filter_insertDesc_ne x acc q hxq]
      simp [hxq]

/-- Claim C6 (amended): the merged output of `mergeSearchResults` is
sorted in weakly descending relevance, equal-relevance results keep their
relative order from the deduplicated concatenation, and the seen-set
deduplication keeps exactly the first occurrence of each `url:title`
string key (first occurrence in concatenation order wins). -/
theorem mergeSearchResults_dedup_sort (resultsArrays : List (List SearchResult)) :
    (mergeSearchResults resultsArrays).Pairwise
      (fun a b => relOrZero b ≤ relOrZero a) ∧
    (∀ q : Rat,
      (mergeSearchResults resultsArrays).filter (fun e => decide (relOrZero e = q)) =
        (dedupFirstOcc resultsArrays.join).filter (fun e => decide (relOrZero e = q))) ∧
    dedupSeen [] resultsArrays.join = dedupFirstOcc resultsArrays.join := by
  refine ⟨sortByRelevanceDesc_sorted _, ?_, dedupSeen_spec _⟩
  intro q
  rw [mergeSearchResults, sortByRelevanceDesc_stable, dedupSeen_spec]

/-- Claim C6 (counterexample to the claim as stated): the merge keys on
the string `url + ":" + title`, which conflates the distinct pairs
`("a:b", "c")` and `("a", "b:c")`: of two results with different
`(url, title)` pairs only one survives, so deduplication is not
"one result per (url, title) pair". -/
theorem mergeSearchResults_pair_key_counterexample :
    (mergeSearchResults
      [[{ id := "1", title := "c", url := "a:b", snippet := "", content := "",
          metadata := { source := "s", timestamp := 0, relevance := some 1,
                        language := "en" },
          provider := "p", cached := false },
        { id := "2", title := "b:c", url := "a", snippet := "", content := "",
          metadata := { source := "s", timestamp := 0, relevance := some 1,
                        language := "en" },
          provider := "p", cached := false }]]).length = 1 ∧
    ¬(({ id := "1", title := "c", url := "a:b", snippet := "", content := "",
         metadata := { source := "s", timestamp := 0, relevance := some 1,
                       language := "en" },
         provider := "p", cached := false } : SearchResult).url =
       ({ id := "2", title := "b:c", url := "a", snippet := "", content := "",
          metadata := { source := "s", timestamp := 0, relevance := some 1,
                        language := "en" },
          provider := "p", cached := false } : SearchResult).url ∧
      ({ id := "1", title := "c", url := "a:b", snippet := "", content := "",
         metadata := { source := "s", timestamp := 0, relevance := some 1,
                       language := "en" },
         provider := "p", cached := false } : SearchResult).title =
       ({ id := "2", title := "b:c", url := "a", snippet := "", content := "",
          metadata := { source := "s", timestamp := 0, relevance := some 1,
                        language := "en" },
          provider := "p", cached := false } : SearchResult).title) := by
  constructor
  · rfl
  · intro h
    exact absurd h.1 (by decide)

/-! ## Multi-provider search (`WebSearchManager.performMultiProviderSearch`) -/

/-- `performMultiProviderSearch`, parameterized by each registered
provider's settled outcome (the source runs all provider calls
concurrently and awaits them all): a failed provider's
`.catch(() => [])` contributes an empty array, then the arrays are
merged. -/
def performMultiProviderSearch
    (outcomes : List (Except String (List SearchResult))) : List SearchResult :=
  mergeSearchResults (outcomes.map fun o =>
    match o with
    | .ok rs => rs
    | .error _ => [])

/-- Claim C7: a failing provider contributes exactly an empty result list
(the failure is absorbed, not propagated); with provider A throwing and
provider B returning two (distinct-key) results the merge returns exactly
those two results, and when every provider fails the result is the empty
list rather than an exception. -/
theorem multiProvider_failure_tolerance :
    (∀ (e : String) (rest : List (Except String (List SearchResult))),
      performMultiProviderSearch (.error e :: rest) =
        performMultiProviderSearch (.ok [] :: rest)) ∧
    (∀ e1 e2 : String, performMultiProviderSearch [.error e1, .error e2] = []) ∧
    (∀ (e : String) (r1 r2 : SearchResult), dedupKey r1 ≠ dedupKey r2 →
      (performMultiProviderSearch [.error e, .ok [r1, r2]]).Perm [r1, r2]) := by
  refine ⟨?_, ?_, ?_⟩
  · intro e rest; rfl
  · intro e1 e2; rfl
  · intro e r1 r2 hne
    have hd : dedupSeen [] ([[], [r1, r2]] : List (List SearchResult)).join = [r1, r2] := by
      simp [dedupSeen, hne.symm]
    have hm : performMultiProviderSearch [.error e, .ok [r1, r2]] =
        sortByRelevanceDesc [r1, r2] := by
      unfold performMultiProviderSearch mergeSearchResults
      simp only [List.map_cons, List.map_nil]
      rw [hd]
    rw [hm]
    by_cases hrel : relOrZero r2 ≤ relOrZero r1
    · rw [show sortByRelevanceDesc [r1, r2] = [r1, r2] by
        simp [sortByRelevanceDesc, insertDesc, hrel]]
    · rw [show sortByRelevanceDesc [r1, r2] = [r2, r1] by
        simp [sortByRelevanceDesc, insertDesc, hrel]]
      exact List.Perm.swap r1 r2 []

/-- Witness for C7 at concrete inputs: one failing provider and one
returning two distinct results. -/
theorem multiProvider_failure_tolerance_witness :
    (performMultiProviderSearch
      [.error "boom",
       .ok [{ id := "1", title := "t1", url := "u1", snippet := "", content := "",
              metadata := { source := "s", timestamp := 0, relevance := some 1,
                            language := "en" },
              provider := "p", cached := false },
            { id := "2", title := "t2", url := "u2", snippet := "", content := "",
              metadata := { source := "s", timestamp := 0, relevance := some (1/2),
                            language := "en" },
              provider := "p", cached := false }]]).Perm
      [{ id := "1", title := "t1", url := "u1", snippet := "", content := "",
         metadata := { source := "s", timestamp := 0, relevance := some 1,
                       language := "en" },
         provider := "p", cached := false },
       { id := "2", title := "t2", url := "u2", snippet := "", content := "",
         metadata := { source := "s", timestamp := 0, relevance := some (1/2),
                       language := "en" },
         provider := "p", cached := false }] ∧
    performMultiProviderSearch [.error "a", .error "b"] = [] := by
  constructor
  · exact multiProvider_failure_tolerance.2.2 "boom" _ _ (by decide)
  · exact multiProvider_failure_tolerance.2.1 "a" "b"

/-! ## Providers (`BaseSearchProvider` and subclasses) -/

/-- `BaseSearchProvider.validateQuery`: a missing (`null`) or empty
query is rejected immediately (empty strings are falsy in JS, so they hit
the `!query` branch), a whitespace-only query is rejected after trimming;
otherwise the trimmed query is returned. -/
def validateQuery : Option String → Except String String
  | none => .error "Query must be a non-empty string"
  | some q =>
    if q = "" then .error "Query must be a non-empty string"
    else if strTrim q = "" then .error "Query cannot be empty"
    else .ok (strTrim q)

/-- `BaseSearchProvider.generateResultId`: the id is a function of the
string `name:url:title` (the source applies `btoa` and strips
non-alphanumerics; we model the pre-image string, of which the id is a
deterministic function). -/
def generateResultId (name url title : String) : String :=
  name ++ ":" ++ url ++ ":" ++ title

/-- `BaseSearchProvider.normalizeResults`: map raw provider payloads to
the canonical result shape; note `cached` is always set to `false`. -/
def normalizeResults (name : String) (now : Nat) (raw : List RawResult) :
    List SearchResult :=
  raw.map fun r =>
    { id := generateResultId name ((jsStrOr r.url r.link).getD "")
        ((jsStrOr r.title r.name).getD ""),
      title := (jsStrOr (jsStrOr r.title r.name) (some "")).getD "",
      url := (jsStrOr (jsStrOr r.url r.link) (some "")).getD "",
      snippet := (jsStrOr (jsStrOr r.snippet r.description) (some "")).getD "",
      content := (jsStrOr r.content (some "")).getD "",
      metadata :=
        { source := name,
          timestamp := now,
          relevance := some (jsRatOr r.relevance (1/2)),
          language := (jsStrOr r.language (some "en")).getD "en" },
      provider := name,
      cached := false }

/-- Errors observable from the aggregator's `search` (thrown JS
exceptions, by site). -/
inductive SearchError where
  /-- `TypeError` from `null.toLowerCase()` in `generateCacheKey`. -/
  | typeError (msg : String)
  /-- `new Error('No available search providers')`. -/
  | noProviders
  /-- `new Error('Rate limit exceeded for provider: ...')`. -/
  | rateLimitExceeded (name : String)
  /-- A query-validation error thrown by the provider's `validateQuery`. -/
  | validation (msg : String)
  /-- A provider/network error (non-2xx response etc.). -/
  | providerFailure (msg : String)
deriving DecidableEq, Repr

/-- A registered provider: its name and the outcome its external backend
would deliver if the network call is performed. Models the shared
structure of `DuckDuckGoSearch`/`GoogleSearch`/`BingSearch.search`:
validate the query, then perform exactly one external call and normalize
its payload. -/
structure Provider where
  name : String
  fetchOutcome : Except String (List RawResult)
deriving Repr

/-- A provider's `search(query)`: validation failures are thrown before
any network traffic; otherwise one network call happens (second component
counts the external calls made). -/
def Provider.search (p : Provider) (query : Option String) (now : Nat) :
    Except SearchError (List SearchResult) × Nat :=
  match validateQuery query with
  | .error m => (.error (.validation m), 0)
  | .ok _ =>
    match p.fetchOutcome with
    | .error m => (.error (.providerFailure m), 1)
    | .ok raw => (.ok (normalizeResults p.name now raw), 1)

/-! ## The aggregator (`WebSearchAPI`) -/

/-- The mutable instance state of a `WebSearchAPI` object: the provider
registry (insertion-ordered `Map` values), the search cache and the
`rateLimiters` map. The source constructor initializes `rateLimiters` to
an empty `Map` and no code path ever populates it; the theorems quantify
over the field so that states with limiters are covered as well. -/
structure WebSearchAPIState where
  providers : List Provider
  searchCache : List (CacheKey × CacheEntry)
  rateLimiters : List (String × RateLimiter)
deriving Repr

/-- `WebSearchAPI.generateCacheKey`: throws a `TypeError` on a `null`
query (`query.toLowerCase()`), else keys on the lowercased trimmed query
and the serialized options. -/
def generateCacheKey (query : Option String) (options : String) :
    Except SearchError CacheKey :=
  match query with
  | none => .error (.typeError "Cannot read properties of null")
  | some q => .ok (strTrim (strLower q), options)

/-- `WebSearchAPI.checkRateLimit`: a provider without an entry in the
`rateLimiters` map is unlimited; otherwise delegate to the (stateful)
`checkLimit` and store back the mutated limiter. -/
def checkRateLimit (rls : List (String × RateLimiter)) (name : String)
    (now : Nat) : Bool × List (String × RateLimiter) :=
  match jsMapGet rls name with
  | none => (true, rls)
  | some rl =>
    let r := rl.checkLimit now
    (r.1, jsMapSet rls name r.2)

/-- `WebSearchAPI.selectProvider`: filter the registered providers through
`checkRateLimit` (mutating the limiters, left to right), preferring the
first admitted provider; if none is admitted, fall back to the first
registered provider (or `null` when none is registered). -/
def selectProvider (provs : List Provider) (rls : List (String × RateLimiter))
    (now : Nat) : Option Provider × List (String × RateLimiter) :=
  let step := provs.foldl
    (fun (acc : List Provider × List (String × RateLimiter)) p =>
      let r := checkRateLimit acc.2 p.name now
      (if r.1 then acc.1 ++ [p] else acc.1, r.2))
    ([], rls)
  match step.1 with
  | p :: _ => (some p, step.2)
  | [] => (provs.head?, step.2)

/-- The cache-miss tail of `WebSearchAPI.search` (provider selection,
the explicit rate-limit check, the provider call and the cache store).
Returns the outcome, the updated state and the number of external
network calls performed. -/
def searchMiss (cfg : CacheConfig) (st : WebSearchAPIState)
    (query : Option String) (key : CacheKey) (now : Nat) :
    Except SearchError (List SearchResult) × WebSearchAPIState × Nat :=
  match selectProvider st.providers st.rateLimiters now with
  | (none, rls1) => (.error .noProviders, { st with rateLimiters := rls1 }, 0)
  | (some p, rls1) =>
    match checkRateLimit rls1 p.name now with
    | (false, rls2) =>
      (.error (.rateLimitExceeded p.name), { st with rateLimiters := rls2 }, 0)
    | (true, rls2) =>
      match p.search query now with
      | (.error e, n) => (.error e, { st with rateLimiters := rls2 }, n)
      | (.ok results, n) =>
        let newCache :=
          if cacheEnabled cfg then
            cacheResults st.searchCache key results now (cacheMaxSize cfg)
          else st.searchCache
        (.ok results, { st with rateLimiters := rls2, searchCache := newCache }, n)

/-- `WebSearchAPI.search`: build the cache key (throwing on `null`),
serve a live cached entry (deleting an expired one), then run the
cache-miss path. -/
def search (cfg : CacheConfig) (st : WebSearchAPIState) (query : Option String)
    (options : String) (now : Nat) :
    Except SearchError (List SearchResult) × WebSearchAPIState × Nat :=
  match generateCacheKey query options with
  | .error e => (.error e, st, 0)
  | .ok key =>
    match (if cacheEnabled cfg then cacheGet st.searchCache key now (cacheTtl cfg)
           else (none, st.searchCache)) with
    | (some results, cache1) => (.ok results, { st with searchCache := cache1 }, 0)
    | (none, cache1) => searchMiss cfg { st with searchCache := cache1 } query key now

/-! ## Search pipeline lemmas -/

theorem cacheGet_none (cache : List (CacheKey × CacheEntry)) (key : CacheKey)
    (now ttl : Nat) (h : jsMapGet cache key = none) :
    cacheGet cache key now ttl = (none, cache) := by
  simp [cacheGet, h]

theorem search_cache_branch_miss (cfg : CacheConfig) (st : WebSearchAPIState)
    (key : CacheKey) (now : Nat) (h : jsMapGet st.searchCache key = none) :
    (if cacheEnabled cfg then cacheGet st.searchCache key now (cacheTtl cfg)
     else (none, st.searchCache)) = (none, st.searchCache) := by
  by_cases hc : cacheEnabled cfg = true
  · simp [hc, cacheGet_none _ _ _ _ h]
  · simp [hc]

theorem search_eq_searchMiss (cfg : CacheConfig) (st : WebSearchAPIState)
    (qstr opts : String) (now : Nat)
    (hmiss : jsMapGet st.searchCache (strTrim (strLower qstr), opts) = none) :
    search cfg st (some qstr) opts now =
      searchMiss cfg st (some qstr) (strTrim (strLower qstr), opts) now := by
  show (match (if cacheEnabled cfg then
          cacheGet st.searchCache (strTrim (strLower qstr), opts) now (cacheTtl cfg)
        else (none, st.searchCache)) with
    | (some results, cache1) =>
      (Except.ok results, { st with searchCache := cache1 }, 0)
    | (none, cache1) =>
      searchMiss cfg { st with searchCache := cache1 } (some qstr)
        (strTrim (strLower qstr), opts) now) =
    searchMiss cfg st (some qstr) (strTrim (strLower qstr), opts) now
  rw [search_cache_branch_miss cfg st _ now hmiss]

theorem checkRateLimit_no_limiter (rls : List (String × RateLimiter))
    (name : String) (now : Nat) (h : jsMapGet rls name = none) :
    checkRateLimit rls name now = (true, rls) := by
  simp [checkRateLimit, h]

theorem selectProvider_empty_rls (provs : List Provider) (now : Nat) :
    selectProvider provs [] now = (provs.head?, []) := by
  have hfold : ∀ (ps : List Provider) (acc : List Provider),
      ps.foldl (fun (acc : List Provider × List (String × RateLimiter)) p =>
        let r := checkRateLimit acc.2 p.name now
        (if r.1 then acc.1 ++ [p] else acc.1, r.2)) (acc, []) =
      (acc ++ ps, []) := by
    intro ps
    induction ps with
    | nil => intro acc; simp
    | cons p ps ih =>
      intro acc
      rw [List.foldl_cons]
      have hc : checkRateLimit ([] : List (String × RateLimiter)) p.name now =
          (true, []) :=
        checkRateLimit_no_limiter _ _ _ (by simp [jsMapGet])
      simp only [hc, if_true]
      rw [ih (acc ++ [p])]
      simp
  unfold selectProvider
  rw [hfold provs []]
  cases provs with
  | nil => simp
  | cons p ps => simp

/-- Claim C9 (amended): an empty query and a whitespace-only query are
rejected by the provider's `validateQuery` with a validation error before
any network call; a `null` query also fails before any network call, but
with a `TypeError` raised in `generateCacheKey` rather than a validation
error. All three leave the aggregator state unchanged and perform zero
network calls. The `rateLimiters` hypothesis reflects every reachable
state of the source: the constructor initializes the map empty and no
code path ever adds to it. -/
theorem search_rejects_invalid_query_before_network (cfg : CacheConfig)
    (st : WebSearchAPIState) (opts : String) (now : Nat)
    (p : Provider) (ps : List Provider)
    (hprov : st.providers = p :: ps)
    (hrls : st.rateLimiters = [])
    (hmiss : jsMapGet st.searchCache ("", opts) = none) :
    search cfg st (some "") opts now =
      (.error (.validation "Query must be a non-empty string"), st, 0) ∧
    search cfg st (some "   ") opts now =
      (.error (.validation "Query cannot be empty"), st, 0) ∧
    search cfg st none opts now =
      (.error (.typeError "Cannot read properties of null"), st, 0) := by
  obtain ⟨provs, cache, rls⟩ := st
  simp only at hprov hrls hmiss
  subst hprov hrls
  have hkey1 : strTrim (strLower "") = "" := by decide
  have hkey2 : strTrim (strLower "   ") = "" := by decide
  refine ⟨?_, ?_, rfl⟩
  · rw [search_eq_searchMiss _ _ _ _ _ (by rw [hkey1]; exact hmiss)]
    unfold searchMiss
    rw [selectProvider_empty_rls]
    simp only [List.head?_cons]
    rw [checkRateLimit_no_limiter _ _ _ (by simp [jsMapGet])]
    rfl
  · rw [search_eq_searchMiss _ _ _ _ _ (by rw [hkey2]; exact hmiss)]
    unfold searchMiss
    rw [selectProvider_empty_rls]
    simp only [List.head?_cons]
    rw [checkRateLimit_no_limiter _ _ _ (by simp [jsMapGet])]
    rfl

/-- Claim C9 (counterexample to the claim as stated): at a concrete
reachable state, `search(null)` does fail before any network call, but
the failure is the `TypeError` thrown by `generateCacheKey`'s
`query.toLowerCase()`, not a validation error. -/
theorem search_null_query_type_error_counterexample :
    (search { enabled := none, ttl := 0, maxSize := 0 }
        { providers := [{ name := "duckduckgo", fetchOutcome := .ok [] }],
          searchCache := [], rateLimiters := [] }
        none "{}" 0) =
      (.error (.typeError "Cannot read properties of null"),
       { providers := [{ name := "duckduckgo", fetchOutcome := .ok [] }],
         searchCache := [], rateLimiters := [] }, 0) ∧
    (∀ m : String,
      (Except.error (SearchError.typeError "Cannot read properties of null") :
        Except SearchError (List SearchResult)) ≠
      .error (.validation m)) := by
  refine ⟨rfl, ?_⟩
  intro m h
  simp at h

/-! ## All providers rate limited (claim C1) -/

theorem jsMap_update_id {κ α : Type} [DecidableEq κ]
    (m : List (κ × α)) (k : κ) (v : α) (h : k ∉ m.map Prod.fst) :
    m.map (fun p => if p.1 = k then (k, v) else p) = m := by
  induction m with
  | nil => rfl
  | cons p m ih =>
    simp at h
    have hk : p.1 ≠ k := fun he => h.1 he.symm
    simp [hk, ih (by simpa using h.2)]

/-- Setting a key back to the value it already holds leaves a (key-nodup)
map unchanged. -/
theorem jsMapSet_self {κ α : Type} [DecidableEq κ]
    (m : List (κ × α)) (k : κ) (v : α) (hnd : NodupKeys m)
    (h : jsMapGet m k = some v) :
    jsMapSet m k v = m := by
  induction m with
  | nil => simp [jsMapGet] at h
  | cons p m ih =>
    have hh : (p.1 :: m.map Prod.fst).Nodup := by
      simpa only [NodupKeys, List.map_cons] using hnd
    have h' := List.nodup_cons.mp hh
    by_cases hk : p.1 = k
    · have hv : v = p.2 := by
        simp [jsMapGet, hk] at h
        exact h.symm
      subst hv
      subst hk
      simp only [jsMapSet, jsMapGet, if_pos rfl, Option.isSome_some, if_true, List.map_cons]
      rw [jsMap_update_id m p.1 p.2 h'.1]
    · have hget : jsMapGet m k = some v := by
        simpa [jsMapGet, hk] using h
      have htail := ih h'.2 hget
      have hsome : (jsMapGet (p :: m) k).isSome := by simp [jsMapGet, hk, hget]
      simp only [jsMapSet, hsome, if_true, List.map_cons, if_neg hk]
      have hsome' : (jsMapGet m k).isSome := by simp [hget]
      rw [show m.map (fun q => if q.1 = k then (k, v) else q) = m by
        have := htail
        simpa [jsMapSet, hsome'] using this]

/-- The state in which a provider's configured rate limiter refuses a
call outright at time `now` (no window rollover, quota exhausted). -/
def rateLimiterRefuses (rls : List (String × RateLimiter)) (name : String)
    (now : Nat) : Prop :=
  ∃ rl, jsMapGet rls name = some rl ∧ now ≤ rl.resetTime ∧
    rl.requests ≤ rl.currentRequests

theorem checkRateLimit_refused (rls : List (String × RateLimiter))
    (name : String) (now : Nat) (hnd : NodupKeys rls)
    (h : rateLimiterRefuses rls name now) :
    checkRateLimit rls name now = (false, rls) := by
  obtain ⟨rl, hget, hwin, hq⟩ := h
  simp only [checkRateLimit, hget]
  rw [checkLimit_refuse rl now hwin hq]
  rw [jsMapSet_self rls name rl hnd hget]

/-- When every registered provider is refused, the filter in
`selectProvider` admits nobody and the fallback picks the first
registered provider; the limiter map is untouched. -/
theorem selectProvider_all_refused (provs : List Provider)
    (rls : List (String × RateLimiter)) (now : Nat) (hnd : NodupKeys rls)
    (hall : ∀ p ∈ provs, rateLimiterRefuses rls p.name now) :
    selectProvider provs rls now = (provs.head?, rls) := by
  have hfold : ∀ (ps : List Provider), (∀ p ∈ ps, rateLimiterRefuses rls p.name now) →
      ps.foldl (fun (acc : List Provider × List (String × RateLimiter)) p =>
        let r := checkRateLimit acc.2 p.name now
        (if r.1 then acc.1 ++ [p] else acc.1, r.2)) ([], rls) =
      ([], rls) := by
    intro ps
    induction ps with
    | nil => intro _; simp
    | cons p ps ih =>
      intro hps
      rw [List.foldl_cons]
      have hc : checkRateLimit rls p.name now = (false, rls) :=
        checkRateLimit_refused rls p.name now hnd (hps p (by simp))
      simp only [hc, if_false]
      exact ih (fun q hq => hps q (by simp [hq]))
  unfold selectProvider
  rw [hfold provs hall]

/-- Claim C1 (amended): when every registered provider's rate limiter
currently refuses a call, `selectProvider` does still fall back to the
first registered provider — but `search`'s subsequent explicit
`checkRateLimit` rejects that provider again, so `search` throws the
rate-limit error and the provider call is never attempted (zero network
calls); the caller observes a rate-limit rejection, not a provider
failure. -/
theorem search_all_rate_limited_rejected (cfg : CacheConfig)
    (st : WebSearchAPIState) (qstr opts : String) (now : Nat)
    (p : Provider) (ps : List Provider)
    (hprov : st.providers = p :: ps)
    (hnd : NodupKeys st.rateLimiters)
    (hall : ∀ q ∈ st.providers, rateLimiterRefuses st.rateLimiters q.name now)
    (hmiss : jsMapGet st.searchCache (strTrim (strLower qstr), opts) = none) :
    (selectProvider st.providers st.rateLimiters now).1 = some p ∧
    search cfg st (some qstr) opts now =
      (.error (.rateLimitExceeded p.name), st, 0) := by
  obtain ⟨provs, cache, rls⟩ := st
  simp only at hprov hnd hall hmiss
  subst hprov
  have hsel := selectProvider_all_refused (p :: ps) rls now hnd hall
  constructor
  · rw [hsel]; rfl
  · rw [search_eq_searchMiss _ _ _ _ _ hmiss]
    unfold searchMiss
    rw [hsel]
    simp only [List.head?_cons]
    rw [checkRateLimit_refused rls p.name now hnd (hall p (by simp))]

/-- Witness for C1's amended theorem at a concrete state: one provider
whose limiter is exhausted (quota 1, counter 1, window still open). -/
theorem search_all_rate_limited_rejected_witness :
    search { enabled := none, ttl := 0, maxSize := 0 }
        { providers := [{ name := "duckduckgo", fetchOutcome := .ok [] }],
          searchCache := [],
          rateLimiters := [("duckduckgo",
            { requests := 1, window := 60000, currentRequests := 1,
              resetTime := 60000 })] }
        (some "hello") "{}" 0 =
      (.error (.rateLimitExceeded "duckduckgo"),
       { providers := [{ name := "duckduckgo", fetchOutcome := .ok [] }],
         searchCache := [],
         rateLimiters := [("duckduckgo",
           { requests := 1, window := 60000, currentRequests := 1,
             resetTime := 60000 })] }, 0) :=
  (search_all_rate_limited_rejected
    { enabled := none, ttl := 0, maxSize := 0 }
    { providers := [{ name := "duckduckgo", fetchOutcome := .ok [] }],
      searchCache := [],
      rateLimiters := [("duckduckgo",
        { requests := 1, window := 60000, currentRequests := 1,
          resetTime := 60000 })] }
    "hello" "{}" 0
    { name := "duckduckgo", fetchOutcome := .ok [] } []
    rfl (by simp [NodupKeys])
    (by
      intro q hq
      simp at hq
      subst hq
      exact ⟨{ requests := 1, window := 60000, currentRequests := 1,
               resetTime := 60000 }, by simp [jsMapGet], by decide, by decide⟩)
    (by simp [jsMapGet])).2

/-- Claim C1 (counterexample to the claim as stated): at a concrete state
where the single registered provider's limiter refuses, the observable
failure of `search` is the rate-limit rejection and zero provider calls
are attempted — not "the provider call's own failure". -/
theorem search_all_rate_limited_counterexample :
    (search { enabled := none, ttl := 0, maxSize := 0 }
        { providers := [{ name := "duckduckgo", fetchOutcome := .ok [] }],
          searchCache := [],
          rateLimiters := [("duckduckgo",
            { requests := 1, window := 60000, currentRequests := 1,
              resetTime := 60000 })] }
        (some "hello") "{}" 0).1 =
      .error (.rateLimitExceeded "duckduckgo") ∧
    (search { enabled := none, ttl := 0, maxSize := 0 }
        { providers := [{ name := "duckduckgo", fetchOutcome := .ok [] }],
          searchCache := [],
          rateLimiters := [("duckduckgo",
            { requests := 1, window := 60000, currentRequests := 1,
              resetTime := 60000 })] }
        (some "hello") "{}" 0).2.2 = 0 ∧
    (∀ m : String,
      (Except.error (SearchError.rateLimitExceeded "duckduckgo") :
        Except SearchError (List SearchResult)) ≠ .error (.providerFailure m)) := by
  refine ⟨rfl, rfl, ?_⟩
  intro m h
  simp at h

/-! ## Cache round trip under query normalization (claim C2) -/

theorem one_le_cacheMaxSize (cfg : CacheConfig) : 1 ≤ cacheMaxSize cfg := by
  unfold cacheMaxSize jsNatOr
  split <;> omega

theorem cacheResults_empty (key : CacheKey) (rs : List SearchResult)
    (now maxSize : Nat) (h : 1 ≤ maxSize) :
    cacheResults [] key rs now maxSize =
      [(key, { results := rs, timestamp := now })] := by
  have hlt : ¬ ([] : List (CacheKey × CacheEntry)).length ≥ maxSize := by
    simp
    omega
  simp [cacheResults, hlt, jsMapSet, jsMapGet]

/-- Claim C2 (amended): queries with equal normalized forms and
identically serialized options produce equal cache keys, and a second
search within `ttl` of the first (storing) search returns exactly the
stored result set with zero further network calls — but the results keep
the stored `cached := false` flag set by `normalizeResults`; no code
path marks them `cached = true`. -/
theorem search_cache_normalized_roundtrip (cfg : CacheConfig) (p : Provider)
    (q1 q2 opts : String) (t1 t2 : Nat) (raws : List RawResult)
    (hen : cacheEnabled cfg = true)
    (hnorm : strTrim (strLower q1) = strTrim (strLower q2))
    (hval : ∃ v, validateQuery (some q1) = .ok v)
    (hfetch : p.fetchOutcome = .ok raws)
    (httl : t2 - t1 ≤ cacheTtl cfg) :
    generateCacheKey (some q1) opts = generateCacheKey (some q2) opts ∧
    search cfg { providers := [p], searchCache := [], rateLimiters := [] }
        (some q1) opts t1 =
      (.ok (normalizeResults p.name t1 raws),
       { providers := [p],
         searchCache := [((strTrim (strLower q1), opts),
           { results := normalizeResults p.name t1 raws, timestamp := t1 })],
         rateLimiters := [] }, 1) ∧
    search cfg
        { providers := [p],
          searchCache := [((strTrim (strLower q1), opts),
            { results := normalizeResults p.name t1 raws, timestamp := t1 })],
          rateLimiters := [] } (some q2) opts t2 =
      (.ok (normalizeResults p.name t1 raws),
       { providers := [p],
         searchCache := [((strTrim (strLower q1), opts),
           { results := normalizeResults p.name t1 raws, timestamp := t1 })],
         rateLimiters := [] }, 0) ∧
    (∀ r ∈ normalizeResults p.name t1 raws, r.cached = false) := by
  obtain ⟨v, hv⟩ := hval
  refine ⟨?_, ?_, ?_, ?_⟩
  · simp [generateCacheKey, hnorm]
  · rw [search_eq_searchMiss _ _ _ _ _ (by simp [jsMapGet])]
    unfold searchMiss
    rw [selectProvider_empty_rls]
    simp only [List.head?_cons]
    rw [checkRateLimit_no_limiter _ _ _ (by simp [jsMapGet])]
    show (match Provider.search p (some q1) t1 with
      | (.error e, n) =>
        (Except.error e,
         ({ providers := [p], searchCache := [],
            rateLimiters := [] } : WebSearchAPIState), n)
      | (.ok results, n) =>
        (Except.ok results,
         ({ providers := [p],
            searchCache :=
              if cacheEnabled cfg then
                cacheResults [] (strTrim (strLower q1), opts) results t1 (cacheMaxSize cfg)
              else [],
            rateLimiters := [] } : WebSearchAPIState), n)) = _
    rw [show Provider.search p (some q1) t1 =
        (.ok (normalizeResults p.name t1 raws), 1) by
      unfold Provider.search
      rw [hv, hfetch]]
    simp only [hen, if_true]
    rw [cacheResults_empty _ _ _ _ (one_le_cacheMaxSize cfg)]
  · have hnexp : isCacheExpired t2 t1 (cacheTtl cfg) = false := by
      simp [isCacheExpired]
      omega
    show (match (if cacheEnabled cfg then
            cacheGet [((strTrim (strLower q1), opts),
              { results := normalizeResults p.name t1 raws, timestamp := t1 })]
              (strTrim (strLower q2), opts) t2 (cacheTtl cfg)
          else (none, [((strTrim (strLower q1), opts),
              { results := normalizeResults p.name t1 raws, timestamp := t1 })])) with
      | (some results, cache1) =>
        (Except.ok results,
         ({ providers := [p], searchCache := cache1,
            rateLimiters := [] } : WebSearchAPIState), 0)
      | (none, cache1) =>
        searchMiss cfg
          ({ providers := [p], searchCache := cache1,
             rateLimiters := [] } : WebSearchAPIState)
          (some q2) (strTrim (strLower q2), opts) t2) = _
    rw [← hnorm]
    have hhit : cacheGet [((strTrim (strLower q1), opts),
          { results := normalizeResults p.name t1 raws, timestamp := t1 })]
          (strTrim (strLower q1), opts) t2 (cacheTtl cfg) =
        (some (normalizeResults p.name t1 raws),
         [((strTrim (strLower q1), opts),
           { results := normalizeResults p.name t1 raws, timestamp := t1 })]) := by
      simp [cacheGet, jsMapGet, hnexp]
    rw [hen]
    simp only [if_true]
    rw [hhit]
  · intro r hr
    simp [normalizeResults] at hr
    obtain ⟨raw, _, hraw⟩ := hr
    rw [← hraw]

/-- Witness for C2's amended theorem: two spellings of the same
normalized query share the cache key and the second search is served
from the cache with zero network calls. -/
theorem search_cache_normalized_roundtrip_witness :
    generateCacheKey (some "Hello ") "{}" = generateCacheKey (some " hELLO") "{}" ∧
    search { enabled := none, ttl := 0, maxSize := 0 }
        { providers := [{ name := "duckduckgo", fetchOutcome := .ok [] }],
          searchCache := [], rateLimiters := [] }
        (some "Hello ") "{}" 0 =
      (.ok [],
       { providers := [{ name := "duckduckgo", fetchOutcome := .ok [] }],
         searchCache := [(("hello", "{}"), { results := [], timestamp := 0 })],
         rateLimiters := [] }, 1) ∧
    search { enabled := none, ttl := 0, maxSize := 0 }
        { providers := [{ name := "duckduckgo", fetchOutcome := .ok [] }],
          searchCache := [(("hello", "{}"), { results := [], timestamp := 0 })],
          rateLimiters := [] }
        (some " hELLO") "{}" 1000 =
      (.ok [],
       { providers := [{ name := "duckduckgo", fetchOutcome := .ok [] }],
         searchCache := [(("hello", "{}"), { results := [], timestamp := 0 })],
         rateLimiters := [] }, 0) := by
  have h := search_cache_normalized_roundtrip
    { enabled := none, ttl := 0, maxSize := 0 }
    { name := "duckduckgo", fetchOutcome := .ok [] }
    "Hello " " hELLO" "{}" 0 1000 []
    (by decide) (by decide) ⟨strTrim "Hello ", rfl⟩ rfl (by decide)
  exact ⟨h.1, h.2.1, h.2.2.1⟩

/-- A raw result with every provider field absent (concrete input for the
C2 counterexample). -/
def cexRawEmpty : RawResult :=
  { title := none, name := none, url := none, link := none, snippet := none,
    description := none, content := none, relevance := none, language := none }

/-- The normalization of `cexRawEmpty` by the duckduckgo provider at time
0 (note `cached := false`). -/
def cexStoredResult : SearchResult :=
  { id := "duckduckgo::", title := "", url := "", snippet := "", content := "",
    metadata := { source := "duckduckgo", timestamp := 0,
                  relevance := some (1/2), language := "en" },
    provider := "duckduckgo", cached := false }

/-- The aggregator state for the C2 counterexample: one provider whose
backend yields `cexRawEmpty`, empty cache, no limiters. -/
def cexState : WebSearchAPIState :=
  { providers := [{ name := "duckduckgo", fetchOutcome := .ok [cexRawEmpty] }],
    searchCache := [], rateLimiters := [] }

/-- Claim C2 (counterexample to the claim as stated): a cache hit within
`ttl` returns the stored result set, but its results carry
`cached = false` (set by `normalizeResults` when they were stored), not
`cached = true` as the claim requires. -/
theorem search_cached_flag_counterexample :
    (search { enabled := none, ttl := 0, maxSize := 0 } cexState
        (some "Hello ") "{}" 0).1 = .ok [cexStoredResult] ∧
    (search { enabled := none, ttl := 0, maxSize := 0 }
        (search { enabled := none, ttl := 0, maxSize := 0 } cexState
          (some "Hello ") "{}" 0).2.1
        (some " hELLO") "{}" 1000).1 = .ok [cexStoredResult] ∧
    cexStoredResult.cached ≠ true := by
  refine ⟨rfl, rfl, by decide⟩

/-! ## Double rate-limit consumption (claim C10) -/

theorem search_eq_searchMiss_nocache (cfg : CacheConfig) (st : WebSearchAPIState)
    (qstr opts : String) (now : Nat) (hc : cacheEnabled cfg = false) :
    search cfg st (some qstr) opts now =
      searchMiss cfg st (some qstr) (strTrim (strLower qstr), opts) now := by
  show (match (if cacheEnabled cfg then
          cacheGet st.searchCache (strTrim (strLower qstr), opts) now (cacheTtl cfg)
        else (none, st.searchCache)) with
    | (some results, cache1) =>
      (Except.ok results, { st with searchCache := cache1 }, 0)
    | (none, cache1) =>
      searchMiss cfg { st with searchCache := cache1 } (some qstr)
        (strTrim (strLower qstr), opts) now) =
    searchMiss cfg st (some qstr) (strTrim (strLower qstr), opts) now
  rw [hc]
  simp

theorem checkRateLimit_singleton (name : String) (rl : RateLimiter) (now : Nat) :
    checkRateLimit [(name, rl)] name now =
      ((rl.checkLimit now).1, [(name, (rl.checkLimit now).2)]) := by
  simp [checkRateLimit, jsMapGet, jsMapSet]

theorem selectProvider_singleton (p : Provider)
    (rls : List (String × RateLimiter)) (now : Nat) :
    selectProvider [p] rls now = (some p, (checkRateLimit rls p.name now).2) := by
  unfold selectProvider
  simp only [List.foldl_cons, List.foldl_nil]
  cases hb : (checkRateLimit rls p.name now).1 <;> simp [hb]

theorem provider_search_calls (p : Provider) (q : Option String) (now : Nat)
    (v : String) (hval : validateQuery q = .ok v) :
    (p.search q now).2 = 1 := by
  unfold Provider.search
  rw [hval]
  cases p.fetchOutcome <;> rfl

/-- One cache-missing `search` against a single provider whose limiter
has room for two admissions consumes two rate-limit slots — one in
`selectProvider`'s filter, one in the explicit `checkRateLimit` — before
the (single) provider call is made. -/
theorem search_round_admitted (cfg : CacheConfig) (st : WebSearchAPIState)
    (p : Provider) (rl : RateLimiter) (qstr opts : String) (now : Nat) (v : String)
    (hprov : st.providers = [p]) (hrls : st.rateLimiters = [(p.name, rl)])
    (hcache : cacheEnabled cfg = false)
    (hval : validateQuery (some qstr) = .ok v)
    (hwin : now ≤ rl.resetTime)
    (hroom : rl.currentRequests + 2 ≤ rl.requests) :
    search cfg st (some qstr) opts now =
      ((p.search (some qstr) now).1,
       { st with rateLimiters :=
           [(p.name, { rl with currentRequests := rl.currentRequests + 2 })] }, 1) := by
  obtain ⟨provs, cache, rls⟩ := st
  simp only at hprov hrls
  subst hprov hrls
  rw [search_eq_searchMiss_nocache cfg _ qstr opts now hcache]
  unfold searchMiss
  simp only
  rw [selectProvider_singleton]
  rw [checkRateLimit_singleton]
  rw [checkLimit_no_reset rl now hwin (by omega)]
  simp only
  rw [checkRateLimit_singleton]
  rw [checkLimit_no_reset { rl with currentRequests := rl.currentRequests + 1 } now
    (by exact hwin) (by simp; omega)]
  simp only
  cases hps : p.search (some qstr) now with
  | mk out n =>
    have hn : n = 1 := by
      have := provider_search_calls p (some qstr) now v hval
      rw [hps] at this
      exact this
    subst hn
    cases out with
    | error e => rfl
    | ok results => simp [hcache]

/-- A search arriving with exactly one slot left: `selectProvider` admits
(consuming the last slot), the explicit check then refuses, so the call
fails with the rate-limit error after consuming one slot and performing
no network call. -/
theorem search_round_blocked_half (cfg : CacheConfig) (st : WebSearchAPIState)
    (p : Provider) (rl : RateLimiter) (qstr opts : String) (now : Nat)
    (hprov : st.providers = [p]) (hrls : st.rateLimiters = [(p.name, rl)])
    (hcache : cacheEnabled cfg = false)
    (hwin : now ≤ rl.resetTime)
    (hlt : rl.currentRequests < rl.requests)
    (hge : rl.requests ≤ rl.currentRequests + 1) :
    search cfg st (some qstr) opts now =
      (.error (.rateLimitExceeded p.name),
       { st with rateLimiters :=
           [(p.name, { rl with currentRequests := rl.currentRequests + 1 })] }, 0) := by
  obtain ⟨provs, cache, rls⟩ := st
  simp only at hprov hrls
  subst hprov hrls
  rw [search_eq_searchMiss_nocache cfg _ qstr opts now hcache]
  unfold searchMiss
  simp only
  rw [selectProvider_singleton]
  rw [checkRateLimit_singleton]
  rw [checkLimit_no_reset rl now hwin hlt]
  simp only
  rw [checkRateLimit_singleton]
  rw [checkLimit_refuse { rl with currentRequests := rl.currentRequests + 1 } now
    (by exact hwin) (by simp; omega)]

/-- A search arriving with the quota already exhausted: both checks
refuse, the limiter is unchanged, no network call happens. -/
theorem search_round_blocked_full (cfg : CacheConfig) (st : WebSearchAPIState)
    (p : Provider) (rl : RateLimiter) (qstr opts : String) (now : Nat)
    (hprov : st.providers = [p]) (hrls : st.rateLimiters = [(p.name, rl)])
    (hcache : cacheEnabled cfg = false)
    (hwin : now ≤ rl.resetTime)
    (hge : rl.requests ≤ rl.currentRequests) :
    search cfg st (some qstr) opts now =
      (.error (.rateLimitExceeded p.name), st, 0) := by
  obtain ⟨provs, cache, rls⟩ := st
  simp only at hprov hrls
  subst hprov hrls
  rw [search_eq_searchMiss_nocache cfg _ qstr opts now hcache]
  unfold searchMiss
  simp only
  rw [selectProvider_singleton]
  rw [checkRateLimit_singleton]
  rw [checkLimit_refuse rl now hwin hge]
  simp only
  rw [checkRateLimit_singleton]
  rw [checkLimit_refuse rl now hwin hge]

/-- Repeatedly call the aggregator's `search` (same query, options and
time), threading the state; the second component counts the total number
of external network calls performed. -/
def searchRounds (cfg : CacheConfig) (query : Option String) (opts : String)
    (now : Nat) : Nat → WebSearchAPIState → WebSearchAPIState × Nat
  | 0, st => (st, 0)
  | n + 1, st =>
    let r := search cfg st query opts now
    let rest := searchRounds cfg query opts now n r.2.1
    (rest.1, r.2.2 + rest.2)

theorem searchRounds_bound (cfg : CacheConfig) (p : Provider)
    (qstr opts : String) (now : Nat) (v : String)
    (R W T : Nat) (cache0 : List (CacheKey × CacheEntry))
    (hcache : cacheEnabled cfg = false)
    (hval : validateQuery (some qstr) = .ok v)
    (hwin : now ≤ T) :
    ∀ (n c : Nat), c ≤ R →
    ∃ c' : Nat, c' ≤ R ∧
      (searchRounds cfg (some qstr) opts now n
        { providers := [p], searchCache := cache0,
          rateLimiters := [(p.name,
            { requests := R, window := W, currentRequests := c,
              resetTime := T })] }).1 =
        { providers := [p], searchCache := cache0,
          rateLimiters := [(p.name,
            { requests := R, window := W, currentRequests := c',
              resetTime := T })] } ∧
      2 * (searchRounds cfg (some qstr) opts now n
        { providers := [p], searchCache := cache0,
          rateLimiters := [(p.name,
            { requests := R, window := W, currentRequests := c,
              resetTime := T })] }).2 + c ≤ c' := by
  intro n
  induction n with
  | zero =>
    intro c hc
    exact ⟨c, hc, rfl, by simp [searchRounds]⟩
  | succ n ih =>
    intro c hc
    by_cases h2 : c + 2 ≤ R
    · have hstep := search_round_admitted cfg
        { providers := [p], searchCache := cache0,
          rateLimiters := [(p.name,
            { requests := R, window := W, currentRequests := c, resetTime := T })] }
        p { requests := R, window := W, currentRequests := c, resetTime := T }
        qstr opts now v rfl rfl hcache hval hwin (by simp; omega)
      obtain ⟨c', hc', hstate, hcalls⟩ := ih (c + 2) (by omega)
      refine ⟨c', hc', ?_, ?_⟩
      · show (searchRounds cfg (some qstr) opts now (n + 1) _).1 = _
        unfold searchRounds
        rw [hstep]
        exact hstate
      · show 2 * (searchRounds cfg (some qstr) opts now (n + 1) _).2 + c ≤ c'
        unfold searchRounds
        rw [hstep]
        simp only
        have hn1 : (p.search (some qstr) now).2 = 1 :=
          provider_search_calls p (some qstr) now v hval
        omega
    · by_cases h1 : c + 1 ≤ R
      · have hstep := search_round_blocked_half cfg
          { providers := [p], searchCache := cache0,
            rateLimiters := [(p.name,
              { requests := R, window := W, currentRequests := c, resetTime := T })] }
          p { requests := R, window := W, currentRequests := c, resetTime := T }
          qstr opts now rfl rfl hcache hwin (by simp; omega) (by simp; omega)
        obtain ⟨c', hc', hstate, hcalls⟩ := ih (c + 1) (by omega)
        refine ⟨c', hc', ?_, ?_⟩
        · unfold searchRounds
          rw [hstep]
          exact hstate
        · unfold searchRounds
          rw [hstep]
          simp only
          omega
      · have hstep := search_round_blocked_full cfg
          { providers := [p], searchCache := cache0,
            rateLimiters := [(p.name,
              { requests := R, window := W, currentRequests := c, resetTime := T })] }
          p { requests := R, window := W, currentRequests := c, resetTime := T }
          qstr opts now rfl rfl hcache hwin (by simp; omega)
        obtain ⟨c', hc', hstate, hcalls⟩ := ih c hc
        refine ⟨c', hc', ?_, ?_⟩
        · unfold searchRounds
          rw [hstep]
          exact hstate
        · unfold searchRounds
          rw [hstep]
          simp only
          omega

/-- Claim C10: with a single registered provider whose limiter is in the
aggregator's `rateLimiters` map, one cache-missing `search` consumes two
rate-limit slots (one in `selectProvider`, one in the explicit check)
before the single provider call; consequently, within one window, `n`
repeated searches perform at most `⌊requests / 2⌋` provider calls. -/
theorem aggregator_double_rate_limit_consumption (cfg : CacheConfig)
    (p : Provider) (qstr opts : String) (now : Nat) (v : String)
    (hcache : cacheEnabled cfg = false)
    (hval : validateQuery (some qstr) = .ok v) :
    (∀ (st : WebSearchAPIState) (rl : RateLimiter),
      st.providers = [p] → st.rateLimiters = [(p.name, rl)] →
      now ≤ rl.resetTime → rl.currentRequests + 2 ≤ rl.requests →
      search cfg st (some qstr) opts now =
        ((p.search (some qstr) now).1,
         { st with rateLimiters :=
             [(p.name, { rl with currentRequests := rl.currentRequests + 2 })] },
         1)) ∧
    (∀ (n R W T : Nat) (cache0 : List (CacheKey × CacheEntry)), now ≤ T →
      (searchRounds cfg (some qstr) opts now n
        { providers := [p], searchCache := cache0,
          rateLimiters := [(p.name,
            { requests := R, window := W, currentRequests := 0,
              resetTime := T })] }).2 ≤ R / 2) := by
  constructor
  · intro st rl hprov hrls hwin hroom
    exact search_round_admitted cfg st p rl qstr opts now v hprov hrls hcache hval
      hwin hroom
  · intro n R W T cache0 hwin
    obtain ⟨c', hc', _, hcalls⟩ :=
      searchRounds_bound cfg p qstr opts now v R W T cache0 hcache hval hwin n 0
        (by omega)
    omega

/-- Witness for C10: quota 5, ten attempted searches in one window — at
most two provider calls happen, and a single search from a fresh limiter
ends with the counter at 2 having made one provider call. -/
theorem aggregator_double_rate_limit_consumption_witness :
    (search { enabled := some false, ttl := 0, maxSize := 0 }
        { providers := [{ name := "duckduckgo", fetchOutcome := .ok [] }],
          searchCache := [],
          rateLimiters := [("duckduckgo",
            { requests := 5, window := 60000, currentRequests := 0,
              resetTime := 60000 })] }
        (some "hello") "{}" 0 =
      ((Provider.search { name := "duckduckgo", fetchOutcome := .ok [] }
          (some "hello") 0).1,
       { providers := [{ name := "duckduckgo", fetchOutcome := .ok [] }],
         searchCache := [],
         rateLimiters := [("duckduckgo",
           { requests := 5, window := 60000, currentRequests := 2,
             resetTime := 60000 })] }, 1)) ∧
    (searchRounds { enabled := some false, ttl := 0, maxSize := 0 }
        (some "hello") "{}" 0 10
        { providers := [{ name := "duckduckgo", fetchOutcome := .ok [] }],
          searchCache := [],
          rateLimiters := [("duckduckgo",
            { requests := 5, window := 60000, currentRequests := 0,
              resetTime := 60000 })] }).2 ≤ 5 / 2 := by
  have h := aggregator_double_rate_limit_consumption
    { enabled := some false, ttl := 0, maxSize := 0 }
    { name := "duckduckgo", fetchOutcome := .ok [] }
    "hello" "{}" 0 (strTrim "hello") (by decide) rfl
  constructor
  · exact h.1
      { providers := [{ name := "duckduckgo", fetchOutcome := .ok [] }],
        searchCache := [],
        rateLimiters := [("duckduckgo",
          { requests := 5, window := 60000, currentRequests := 0,
            resetTime := 60000 })] }
      { requests := 5, window := 60000, currentRequests := 0, resetTime := 60000 }
      rfl rfl (by decide) (by decide)
  · exact h.2 10 5 60000 60000 [] (by decide)

/-! ## AI-enhanced search (`WebSearchManager.performAISearch`) -/

/-- A chat message sent to the language-model boundary. -/
structure ChatMessage where
  role : String
  content : String
deriving DecidableEq, Repr

/-- The optional context fields consulted by `buildAnalysisPrompt`. -/
structure SearchContext where
  selectedText : Option String
  conversationHistory : Option String
deriving DecidableEq, Repr

/-- JS truthiness of a possibly-absent string (absent and empty are
falsy). -/
def jsTruthyStr (o : Option String) : Bool :=
  match o with
  | none => false
  | some "" => false
  | some _ => true

/-- `WebSearchManager.formatResultsForAnalysis`: render each result as a
numbered block, joined by blank lines. -/
def formatResultsForAnalysis (results : List SearchResult) : String :=
  String.intercalate "\n\n" (results.enum.map (fun ir =>
    Nat.repr (ir.1 + 1) ++ ". **" ++ ir.2.title ++ "**\n" ++
    "URL: " ++ ir.2.url ++ "\n" ++
    "Snippet: " ++ ir.2.snippet ++ "\n" ++
    (if ir.2.content = "" then ""
     else "Content: " ++ ir.2.content.take 500 ++ "...") ++ "\n---"))

/-- `WebSearchManager.buildAnalysisPrompt`. -/
def buildAnalysisPrompt (query resultsText : String) (context : SearchContext)
    (basePrompt : String) : String :=
  basePrompt ++ "\n\n" ++
  "Query: \x22" ++ query ++ "\x22\n\n" ++
  (if jsTruthyStr context.selectedText then
    "Context (selected text): \x22" ++ context.selectedText.getD "" ++ "\x22\n\n"
   else "") ++
  (if jsTruthyStr context.conversationHistory then
    "Conversation context: " ++ context.conversationHistory.getD "" ++ "\n\n"
   else "") ++
  "Search Results:\n" ++ resultsText ++ "\n\n" ++
  "Please provide a comprehensive analysis of these search results, including:\n" ++
  "1. Key insights and findings\n" ++
  "2. Relevance to the query\n" ++
  "3. Any patterns or trends identified\n" ++
  "4. Recommendations or next steps\n" ++
  "5. Limitations or gaps in the information\n\n" ++
  "Analysis:"

/-- `WebSearchManager.analyzeSearchResults`, parameterized by the chat
boundary; a model failure is swallowed and replaced by the fallback
string. The second component counts chat invocations. -/
def analyzeSearchResults (query : String) (results : List SearchResult)
    (context : SearchContext) (basePrompt : String)
    (chat : List ChatMessage → Except String String) : String × Nat :=
  match chat
    [{ role := "system",
       content := "You are a helpful AI assistant that analyzes web search results and provides insightful summaries and analysis." },
     { role := "user",
       content := buildAnalysisPrompt query (formatResultsForAnalysis results)
         context basePrompt }] with
  | .ok analysis => (analysis, 1)
  | .error _ => ("Unable to analyze search results due to an error.", 1)

/-- The record returned by `performAISearch` (search history bookkeeping
is display-only and omitted). -/
structure AISearchRecord where
  query : String
  results : List SearchResult
  analysis : String
  timestamp : Nat
deriving Repr

/-- `WebSearchManager.performAISearch`, parameterized by the underlying
search outcome and the chat boundary: a search failure propagates; zero
search results short-circuit to a canned analysis without consulting the
model; otherwise the results are analyzed with exactly one chat call.
The `Nat` in the result counts chat invocations. -/
def performAISearch (query : String) (context : SearchContext)
    (basePrompt : String) (chat : List ChatMessage → Except String String)
    (searchOutcome : Except SearchError (List SearchResult)) (now : Nat) :
    Except SearchError (AISearchRecord × Nat) :=
  match searchOutcome with
  | .error e => .error e
  | .ok searchResults =>
    if searchResults.length = 0 then
      .ok ({ query := query, results := [],
             analysis := "No search results found for the given query.",
             timestamp := now }, 0)
    else
      let r := analyzeSearchResults query searchResults context basePrompt chat
      .ok ({ query := query, results := searchResults, analysis := r.1,
             timestamp := now }, r.2)

/-- Claim C8: when the underlying search returns zero results,
`performAISearch` returns the canned analysis string with an empty result
list and performs zero chat calls; with at least one result, the chat
boundary is invoked exactly once. -/
theorem performAISearch_empty_short_circuit :
    (∀ (query : String) (context : SearchContext) (basePrompt : String)
      (chat : List ChatMessage → Except String String) (now : Nat),
      performAISearch query context basePrompt chat (.ok []) now =
        .ok ({ query := query, results := [],
               analysis := "No search results found for the given query.",
               timestamp := now }, 0)) ∧
    (∀ (query : String) (context : SearchContext) (basePrompt : String)
      (chat : List ChatMessage → Except String String) (now : Nat)
      (r : SearchResult) (rs : List SearchResult),
      performAISearch query context basePrompt chat (.ok (r :: rs)) now =
        .ok ({ query := query, results := r :: rs,
               analysis := (analyzeSearchResults query (r :: rs) context
                 basePrompt chat).1,
               timestamp := now }, 1)) := by
  constructor
  · intro query context basePrompt chat now
    rfl
  · intro query context basePrompt chat now r rs
    show performAISearch query context basePrompt chat (.ok (r :: rs)) now = _
    unfold performAISearch
    simp only [List.length_cons]
    rw [if_neg (by omega)]
    have h2 : (analyzeSearchResults query (r :: rs) context basePrompt chat).2 = 1 := by
      unfold analyzeSearchResults
      generalize chat _ = res
      cases res <;> rfl
    rw [← h2]

/-- Witness for C9's amended theorem at a concrete reachable state. -/
theorem search_rejects_invalid_query_before_network_witness :
    search { enabled := none, ttl := 0, maxSize := 0 }
        { providers := [{ name := "duckduckgo", fetchOutcome := .ok [] }],
          searchCache := [], rateLimiters := [] } (some "") "{}" 0 =
      (.error (.validation "Query must be a non-empty string"),
       { providers := [{ name := "duckduckgo", fetchOutcome := .ok [] }],
         searchCache := [], rateLimiters := [] }, 0) ∧
    search { enabled := none, ttl := 0, maxSize := 0 }
        { providers := [{ name := "duckduckgo", fetchOutcome := .ok [] }],
          searchCache := [], rateLimiters := [] } (some "   ") "{}" 0 =
      (.error (.validation "Query cannot be empty"),
       { providers := [{ name := "duckduckgo", fetchOutcome := .ok [] }],
         searchCache := [], rateLimiters := [] }, 0) := by
  have h := search_rejects_invalid_query_before_network
    { enabled := none, ttl := 0, maxSize := 0 }
    { providers := [{ name := "duckduckgo", fetchOutcome := .ok [] }],
      searchCache := [], rateLimiters := [] }
    "{}" 0 { name := "duckduckgo", fetchOutcome := .ok [] } []
    rfl rfl rfl
  exact ⟨h.1, h.2.1⟩
